import Mathlib

/-!
Verification development for the Northstar financial data layer
(`core/finance.py`): a shallow embedding of the price resolver, the
portfolio valuation aggregator, the policy-status view, the policy
check client and the Jupiter swap orchestrator, together with theorems
settling the specified properties.

Modelling conventions:
* Python floats are modelled as exact rationals (`ℚ`).
* Every effectful Python function is embedded as a pure function over an
  explicit environment record holding the responses of its external
  collaborators (HTTP sources, subprocess, key files); `None` becomes
  `Option.none`.
* `round(x, 2)` is modelled by `round2`, rounding half to even as Python
  does, over exact rationals.
* The swap orchestrator additionally returns a trace (`List Eff`) of the
  external calls and log appends it performs, in program order, so that
  call-ordering properties can be stated.
-/

/-- Known SOL mint address (module constant `SOL_MINT`). -/
def SOL_MINT : String := "So11111111111111111111111111111111111111112"

/-- Round a rational to the nearest integer, halves to even (Python `round`). -/
def rhalfEven (x : ℚ) : ℤ :=
  let f : ℤ := ⌊x⌋
  let r : ℚ := x - (f : ℚ)
  if r < 1/2 then f
  else if 1/2 < r then f + 1
  else if f % 2 = 0 then f else f + 1

/-- `round(x, 2)`: round to two decimal places. -/
def round2 (x : ℚ) : ℚ := (rhalfEven (x * 100) : ℚ) / 100

/-- Responses of the two price sources consulted by `get_sol_price`:
`coingecko` is the result of `_coingecko_price("solana")` and
`dexscreener` the result of `_dexscreener_price(SOL_MINT)`; `none`
models any failure (network error, malformed data, missing field). -/
structure PriceEnv where
  coingecko : Option ℚ
  dexscreener : Option ℚ
deriving Repr, DecidableEq

/-- `get_sol_price`: return the CoinGecko price if truthy (`if price:`
in Python, i.e. present and nonzero), otherwise return the DexScreener
result unchanged. -/
def get_sol_price (e : PriceEnv) : Option ℚ :=
  match e.coingecko with
  | some p => if p = 0 then e.dexscreener else some p
  | none => e.dexscreener

/-- One line of `portfolio_history.jsonl` as read by
`get_portfolio_24h_change`: its timestamp (seconds, already parsed by
`_parse_ts`) and its `total_value_usd` field. -/
structure HistEntry where
  ts : ℚ
  total_value_usd : ℚ
deriving Repr, DecidableEq

/-- `abs` on rationals, written out so the kernel evaluates it directly. -/
def qabs (x : ℚ) : ℚ := if x < 0 then -x else x

/-- The `for entry in history` loop of `get_portfolio_24h_change`: keep
the entry whose timestamp is strictly closer to `target` than the
running best (ties keep the earlier entry). -/
def bestNear (target : ℚ) : HistEntry → List HistEntry → HistEntry
  | best, [] => best
  | best, e :: rest =>
      if qabs (e.ts - target) < qabs (best.ts - target)
      then bestNear target e rest
      else bestNear target best rest

/-- Result record of `get_portfolio_24h_change`. -/
structure Change24h where
  change_usd : ℚ
  change_pct : ℚ
  value_24h_ago : ℚ
  current : ℚ
deriving Repr, DecidableEq

/-- `get_portfolio_24h_change`: empty history gives the all-zero record;
otherwise take `current` from the last entry, pick the entry nearest to
`now − 24h` (86400 s) starting from `history[0]`, and derive the change
fields, rounding the two derived ones to 2 decimals. -/
def get_portfolio_24h_change (now : ℚ) (history : List HistEntry) : Change24h :=
  match history with
  | [] => ⟨0, 0, 0, 0⟩
  | h0 :: rest =>
    let current := ((h0 :: rest).getLastD h0).total_value_usd
    let target := now - 86400
    let best := bestNear target h0 (h0 :: rest)
    let value24 := best.total_value_usd
    let change := current - value24
    let pct := if value24 > 0 then change / value24 * 100 else 0
    ⟨round2 change, round2 pct, value24, current⟩

lemma bestNear_mem (t : ℚ) (b : HistEntry) (l : List HistEntry) :
    bestNear t b l = b ∨ bestNear t b l ∈ l := by
  induction l generalizing b with
  | nil => exact Or.inl rfl
  | cons e rest ih =>
    simp only [bestNear]
    split
    · rcases ih e with h | h
      · exact Or.inr (by simp [h])
      · exact Or.inr (by simp [h])
    · rcases ih b with h | h
      · exact Or.inl h
      · exact Or.inr (by simp [h])

lemma bestNear_le_init (t : ℚ) (b : HistEntry) (l : List HistEntry) :
    qabs ((bestNear t b l).ts - t) ≤ qabs (b.ts - t) := by
  induction l generalizing b with
  | nil => simp [bestNear]
  | cons e rest ih =>
    simp only [bestNear]
    split
    · exact le_of_lt (lt_of_le_of_lt (ih e) (by assumption))
    · exact ih b

lemma bestNear_le_all (t : ℚ) (b : HistEntry) (l : List HistEntry) :
    ∀ e ∈ l, qabs ((bestNear t b l).ts - t) ≤ qabs (e.ts - t) := by
  induction l generalizing b with
  | nil => simp
  | cons e rest ih =>
    intro x hx
    rcases List.mem_cons.mp hx with h | h
    · subst h
      simp only [bestNear]
      split
      · exact bestNear_le_init t x rest
      · exact le_trans (bestNear_le_init t b rest) (le_of_not_lt (by assumption))
    · simp only [bestNear]
      split
      · exact ih e x h
      · exact ih b x h

lemma bestNear_split (t : ℚ) (b : HistEntry) (l : List HistEntry) :
    bestNear t b l = b ∨
      ∃ l₁ l₂, l = l₁ ++ bestNear t b l :: l₂ ∧
        qabs ((bestNear t b l).ts - t) < qabs (b.ts - t) ∧
        ∀ e ∈ l₁, qabs ((bestNear t b l).ts - t) < qabs (e.ts - t) := by
  induction l generalizing b with
  | nil => exact Or.inl rfl
  | cons e rest ih =>
    simp only [bestNear]
    split
    · rcases ih e with h | ⟨l₁, l₂, hsplit, hlt, hall⟩
      · refine Or.inr ⟨[], rest, ?_, ?_, ?_⟩
        · simp [h]
        · rw [h]; assumption
        · simp
      · refine Or.inr ⟨e :: l₁, l₂, ?_, ?_, ?_⟩
        · conv_lhs => rw [hsplit]
          simp
        · exact lt_trans hlt (by assumption)
        · intro x hx
          rcases List.mem_cons.mp hx with hx | hx
          · subst hx; exact hlt
          · exact hall x hx
    · rcases ih b with h | ⟨l₁, l₂, hsplit, hlt, hall⟩
      · exact Or.inl h
      · refine Or.inr ⟨e :: l₁, l₂, ?_, ?_, ?_⟩
        · conv_lhs => rw [hsplit]
          simp
        · exact hlt
        · intro x hx
          rcases List.mem_cons.mp hx with hx | hx
          · subst hx
            exact lt_of_lt_of_le hlt (le_of_not_lt (by assumption))
          · exact hall x hx

/-- The spec's worked example history: entries at T−48h, T−25h, T−23h
and T (in seconds, with T = 172800) carrying values 100, 110, 115, 120. -/
def exHist24 : List HistEntry := [⟨0, 100⟩, ⟨82800, 110⟩, ⟨90000, 115⟩, ⟨172800, 120⟩]

/-- Claim C6 (counterexample): on the history with entries at T−48h,
T−25h, T−23h, T valued 100, 110, 115, 120, the code selects the T−25h
entry (both T−25h and T−23h are exactly 1h from the target and the
earlier one wins the tie), so `value_24h_ago = 110` and
`change_usd = 10`, contradicting the claimed selection of T−23h with
`value_24h_ago = 115` and `change_usd = 5`. -/
theorem get24hChange_example_refuted :
    (get_portfolio_24h_change 172800 exHist24).value_24h_ago = 110 ∧
    (get_portfolio_24h_change 172800 exHist24).change_usd = 10 ∧
    ¬ ((get_portfolio_24h_change 172800 exHist24).value_24h_ago = 115 ∧
       (get_portfolio_24h_change 172800 exHist24).change_usd = 5) := by
  refine ⟨?_, ?_, ?_⟩ <;>
    norm_num [get_portfolio_24h_change, exHist24, bestNear, qabs, round2, rhalfEven,
      List.getLastD]

/-- Claim C6 (amended): for every non-empty history the computation
selects the entry at minimum absolute distance to `now − 24h`, ties
broken by the earliest-encountered entry, and returns
`change_usd = round2 (current − matched)`,
`change_pct = round2 (change/matched×100)` with 0 when the matched
value is ≤ 0, and `value_24h_ago = matched`; on the example history the
selected entry is the one at T−25h, yielding `change_usd = 10` and
`value_24h_ago = 110`; on an empty history all fields are zero. -/
theorem get24hChange_nearest (now : ℚ) (history : List HistEntry) :
    (history = [] → get_portfolio_24h_change now history = ⟨0, 0, 0, 0⟩) ∧
    (∀ h0 rest, history = h0 :: rest →
      ∃ matched l₁ l₂,
        history = l₁ ++ matched :: l₂ ∧
        (∀ e ∈ history, qabs (matched.ts - (now - 86400)) ≤ qabs (e.ts - (now - 86400))) ∧
        (∀ e ∈ l₁, qabs (matched.ts - (now - 86400)) < qabs (e.ts - (now - 86400))) ∧
        get_portfolio_24h_change now history =
          ⟨round2 ((history.getLastD h0).total_value_usd - matched.total_value_usd),
           round2 (if matched.total_value_usd > 0 then
               ((history.getLastD h0).total_value_usd - matched.total_value_usd) /
                 matched.total_value_usd * 100
             else 0),
           matched.total_value_usd,
           (history.getLastD h0).total_value_usd⟩) ∧
    get_portfolio_24h_change 172800 exHist24 = ⟨10, 909/100, 110, 120⟩ := by
  refine ⟨fun h => by subst h; rfl, ?_, ?_⟩
  · intro h0 rest hh
    subst hh
    refine ⟨bestNear (now - 86400) h0 (h0 :: rest), ?_⟩
    rcases bestNear_split (now - 86400) h0 (h0 :: rest) with h | ⟨l₁, l₂, hs, _, hall⟩
    · exact ⟨[], rest, by rw [h]; rfl, bestNear_le_all _ _ _, by simp, rfl⟩
    · exact ⟨l₁, l₂, hs, bestNear_le_all _ _ _, hall, rfl⟩
  · norm_num [get_portfolio_24h_change, exHist24, bestNear, qabs, round2, rhalfEven,
      List.getLastD]

/-- Witness for `get24hChange_nearest` at a concrete non-empty history. -/
theorem get24hChange_nearest_witness :
    ∃ matched l₁ l₂,
      exHist24 = l₁ ++ matched :: l₂ ∧
      (∀ e ∈ exHist24, qabs (matched.ts - (172800 - 86400)) ≤ qabs (e.ts - (172800 - 86400))) ∧
      (∀ e ∈ l₁, qabs (matched.ts - (172800 - 86400)) < qabs (e.ts - (172800 - 86400))) ∧
      get_portfolio_24h_change 172800 exHist24 =
        ⟨round2 ((exHist24.getLastD ⟨0, 100⟩).total_value_usd - matched.total_value_usd),
         round2 (if matched.total_value_usd > 0 then
             ((exHist24.getLastD ⟨0, 100⟩).total_value_usd - matched.total_value_usd) /
               matched.total_value_usd * 100
           else 0),
         matched.total_value_usd,
         (exHist24.getLastD ⟨0, 100⟩).total_value_usd⟩ :=
  (get24hChange_nearest 172800 exHist24).2.1 ⟨0, 100⟩
    [⟨82800, 110⟩, ⟨90000, 115⟩, ⟨172800, 120⟩] rfl

/-- Claim C4 (counterexample): when the primary source fails and the
fallback reports a price of exactly 0, `get_sol_price` returns that 0,
not absence — the claimed "fallback's price if positive, else absent;
never zero" fails. -/
theorem get_sol_price_zero_fallback :
    get_sol_price ⟨none, some 0⟩ = some 0 ∧ (some (0 : ℚ) ≠ (none : Option ℚ)) := by
  constructor
  · rfl
  · simp

/-- Claim C4 (amended): the resolver returns the primary source's price
whenever the primary returns a nonzero parseable number (in particular
any strictly positive one), and the fallback is then not consulted;
when the primary yields no number or yields zero, the resolver returns
exactly whatever the fallback source yielded — which may be absent,
zero, or negative. Failures never surface: the result is always a plain
optional price. -/
theorem get_sol_price_spec (e : PriceEnv) :
    (∀ p, e.coingecko = some p → 0 < p → get_sol_price e = some p) ∧
    (∀ p, e.coingecko = some p → p ≠ 0 →
      get_sol_price e = some p ∧
      ∀ d, get_sol_price { e with dexscreener := d } = some p) ∧
    ((e.coingecko = none ∨ e.coingecko = some 0) → get_sol_price e = e.dexscreener) := by
  refine ⟨?_, ?_, ?_⟩
  · intro p hp hpos
    simp [get_sol_price, hp, ne_of_gt hpos]
  · intro p hp hne
    exact ⟨by simp [get_sol_price, hp, hne], fun d => by simp [get_sol_price, hp, hne]⟩
  · rintro (h | h) <;> simp [get_sol_price, h]

/-- Witness for `get_sol_price_spec`: a primary price of 50 wins over a
fallback of 7. -/
theorem get_sol_price_spec_witness :
    get_sol_price ⟨some 50, some 7⟩ = some 50 :=
  (get_sol_price_spec ⟨some 50, some 7⟩).1 50 rfl (by norm_num)

/-- One SPL token account as returned by `get_solana_token_accounts`
(already filtered to strictly positive amounts by that function). -/
structure TokenAcct where
  mint : String
  amount : ℚ
  decimals : ℤ
deriving Repr, DecidableEq

/-- One holding row of a portfolio snapshot. -/
structure Holding where
  chain : String
  symbol : String
  mint : String
  amount : ℚ
  price_usd : ℚ
  value_usd : ℚ
deriving Repr, DecidableEq

/-- Resolved results of the external queries made by
`compute_portfolio_snapshot`: `sol_bal`/`base_bal` from the balance
fetchers, `sol_price`/`eth_price` from the price resolvers, `tokens`
from `get_solana_token_accounts`, and `token_price` giving
`get_token_price` per mint. -/
structure SnapEnv where
  sol_bal : Option ℚ
  sol_price : Option ℚ
  base_bal : Option ℚ
  eth_price : Option ℚ
  tokens : List TokenAcct
  token_price : String → Option ℚ

/-- The subset of the snapshot dict referenced by the claims (the
timestamp and nested policy record are omitted). -/
structure Snapshot where
  total_value_usd : ℚ
  holdings : List Holding
  sol_balance : Option ℚ
  sol_price : Option ℚ
  base_balance : Option ℚ
  eth_price : Option ℚ

/-- The `for tok in tokens` loop of `compute_portfolio_snapshot`,
accumulating the holdings list and running total exactly as the code
does: a token with no resolvable price is skipped. -/
def tokenLoop (tp : String → Option ℚ) (accH : List Holding) (accT : ℚ) :
    List TokenAcct → List Holding × ℚ
  | [] => (accH, accT)
  | t :: rest =>
    match tp t.mint with
    | none => tokenLoop tp accH accT rest
    | some p =>
      let v := t.amount * p
      tokenLoop tp (accH ++ [⟨"solana", t.mint.take 8, t.mint, t.amount, p, v⟩]) (accT + v) rest

/-- `compute_portfolio_snapshot`: include the SOL row only when both
balance and price resolved, likewise the Base-ETH row, then fold the
token accounts; the displayed total is the accumulated total rounded to
2 decimals. -/
def compute_portfolio_snapshot (env : SnapEnv) : Snapshot :=
  let st1 : List Holding × ℚ :=
    match env.sol_bal, env.sol_price with
    | some b, some p => ([⟨"solana", "SOL", SOL_MINT, b, p, b * p⟩], b * p)
    | _, _ => ([], 0)
  let st2 : List Holding × ℚ :=
    match env.base_bal, env.eth_price with
    | some b, some p => (st1.1 ++ [⟨"base", "ETH", "native", b, p, b * p⟩], st1.2 + b * p)
    | _, _ => st1
  let st3 := tokenLoop env.token_price st2.1 st2.2 env.tokens
  { total_value_usd := round2 st3.2
    holdings := st3.1
    sol_balance := env.sol_bal
    sol_price := env.sol_price
    base_balance := env.base_bal
    eth_price := env.eth_price }

/-- The token rows produced by the loop, described declaratively. -/
def tokenRows (tp : String → Option ℚ) (l : List TokenAcct) : List Holding :=
  l.filterMap fun t =>
    (tp t.mint).map fun p => ⟨"solana", t.mint.take 8, t.mint, t.amount, p, t.amount * p⟩

lemma tokenLoop_eq (tp : String → Option ℚ) (l : List TokenAcct) :
    ∀ (accH : List Holding) (accT : ℚ),
      tokenLoop tp accH accT l =
        (accH ++ tokenRows tp l, accT + ((tokenRows tp l).map Holding.value_usd).sum) := by
  induction l with
  | nil => intro accH accT; simp [tokenLoop, tokenRows]
  | cons t rest ih =>
    intro accH accT
    cases htp : tp t.mint with
    | none => simp [tokenLoop, htp, ih, tokenRows]
    | some p => simp [tokenLoop, htp, ih, tokenRows, add_assoc]

lemma tokenRows_value (tp : String → Option ℚ) (l : List TokenAcct) :
    ∀ h ∈ tokenRows tp l, h.value_usd = h.amount * h.price_usd := by
  intro h hmem
  simp only [tokenRows, List.mem_filterMap] at hmem
  obtain ⟨t, _, ht⟩ := hmem
  cases htp : tp t.mint with
  | none => rw [htp] at ht; simp at ht
  | some p =>
    rw [htp] at ht
    simp only [Option.map_some', Option.some.injEq] at ht
    rw [← ht]

lemma tokenRows_map (tp : String → Option ℚ) (l : List TokenAcct) :
    (tokenRows tp l).map (fun h => (h.chain, h.mint)) =
      (l.filter fun t => (tp t.mint).isSome).map fun t => ("solana", t.mint) := by
  induction l with
  | nil => simp [tokenRows]
  | cons t rest ih => cases htp : tp t.mint <;> simp [tokenRows, htp, ih] <;>
      simpa [tokenRows] using ih

/-- The SOL row of a snapshot, present when both balance and price resolved. -/
def solRows (env : SnapEnv) : List Holding :=
  match env.sol_bal, env.sol_price with
  | some b, some p => [⟨"solana", "SOL", SOL_MINT, b, p, b * p⟩]
  | _, _ => []

/-- The Base-ETH row of a snapshot, present when both balance and price resolved. -/
def ethRows (env : SnapEnv) : List Holding :=
  match env.base_bal, env.eth_price with
  | some b, some p => [⟨"base", "ETH", "native", b, p, b * p⟩]
  | _, _ => []

lemma compute_portfolio_snapshot_eq (env : SnapEnv) :
    (compute_portfolio_snapshot env).holdings =
      (solRows env ++ ethRows env) ++ tokenRows env.token_price env.tokens ∧
    (compute_portfolio_snapshot env).total_value_usd =
      round2 ((((solRows env ++ ethRows env) ++
        tokenRows env.token_price env.tokens).map Holding.value_usd).sum) := by
  obtain ⟨sb, sp, bb, ep, toks, tp⟩ := env
  rcases sb with _ | b <;> rcases sp with _ | p <;> rcases bb with _ | c <;> rcases ep with _ | q <;>
    simp [compute_portfolio_snapshot, solRows, ethRows, tokenLoop_eq, add_assoc]

lemma solRows_value (env : SnapEnv) :
    ∀ h ∈ solRows env, h.value_usd = h.amount * h.price_usd := by
  obtain ⟨sb, sp, bb, ep, toks, tp⟩ := env
  rcases sb with _ | b <;> rcases sp with _ | p <;> intro h hmem <;> simp [solRows] at hmem
  subst hmem; rfl

lemma ethRows_value (env : SnapEnv) :
    ∀ h ∈ ethRows env, h.value_usd = h.amount * h.price_usd := by
  obtain ⟨sb, sp, bb, ep, toks, tp⟩ := env
  rcases bb with _ | b <;> rcases ep with _ | p <;> intro h hmem <;> simp [ethRows] at hmem
  subst hmem; rfl

lemma solRows_map (env : SnapEnv) :
    (solRows env).map (fun h => (h.chain, h.mint)) =
      if env.sol_bal.isSome && env.sol_price.isSome then [("solana", SOL_MINT)] else [] := by
  obtain ⟨sb, sp, bb, ep, toks, tp⟩ := env
  rcases sb with _ | b <;> rcases sp with _ | p <;> simp [solRows]

lemma ethRows_map (env : SnapEnv) :
    (ethRows env).map (fun h => (h.chain, h.mint)) =
      if env.base_bal.isSome && env.eth_price.isSome then [("base", "native")] else [] := by
  obtain ⟨sb, sp, bb, ep, toks, tp⟩ := env
  rcases bb with _ | b <;> rcases ep with _ | p <;> simp [ethRows]

/-- Claim C5: every snapshot's holdings are exactly the (chain, asset)
pairs with both a balance and a price resolved — the SOL row iff SOL
balance and price resolved, the Base-ETH row iff Base balance and ETH
price resolved, and one row per token account whose price resolved; no
placeholder rows. Each row's `value_usd` is `amount × price_usd`, and
`total_value_usd` is the unrounded sum of the rows' `value_usd`,
rounded to 2 decimal places. -/
theorem compute_portfolio_snapshot_spec (env : SnapEnv) :
    (∀ h ∈ (compute_portfolio_snapshot env).holdings,
      h.value_usd = h.amount * h.price_usd) ∧
    (compute_portfolio_snapshot env).total_value_usd =
      round2 (((compute_portfolio_snapshot env).holdings.map Holding.value_usd).sum) ∧
    (compute_portfolio_snapshot env).holdings.map (fun h => (h.chain, h.mint)) =
      ((if env.sol_bal.isSome && env.sol_price.isSome then [("solana", SOL_MINT)] else []) ++
       (if env.base_bal.isSome && env.eth_price.isSome then [("base", "native")] else []) ++
       (env.tokens.filter fun t => (env.token_price t.mint).isSome).map
         fun t => ("solana", t.mint)) := by
  obtain ⟨hH, hT⟩ := compute_portfolio_snapshot_eq env
  refine ⟨?_, ?_, ?_⟩
  · intro h hmem
    rw [hH] at hmem
    rcases List.mem_append.mp hmem with hm | hm
    · rcases List.mem_append.mp hm with hm' | hm'
      · exact solRows_value env h hm'
      · exact ethRows_value env h hm'
    · exact tokenRows_value _ _ h hm
  · rw [hH, hT]
  · rw [hH]
    simp only [List.map_append, solRows_map, ethRows_map, tokenRows_map]

/-- A concrete snapshot environment: SOL resolved, Base-ETH balance
missing, two token accounts of which only one has a price. -/
def snapEnv0 : SnapEnv :=
  { sol_bal := some 2
    sol_price := some 100
    base_bal := none
    eth_price := some 50
    tokens := [⟨"mintA", 3, 6⟩, ⟨"mintB", 4, 6⟩]
    token_price := fun m => if m = "mintA" then some 10 else none }

/-- Witness for `compute_portfolio_snapshot_spec`: on `snapEnv0` the
holdings are exactly the SOL row and the priced token row. -/
theorem compute_portfolio_snapshot_spec_witness :
    (compute_portfolio_snapshot snapEnv0).holdings.map (fun h => (h.chain, h.mint)) =
      [("solana", SOL_MINT), ("solana", "mintA")] := by
  have h := (compute_portfolio_snapshot_spec snapEnv0).2.2
  simpa [snapEnv0] using h

/-- Outcome of the `subprocess.run` call inside `check_policy`:
either the process completed with a return code and captured streams,
or the call itself raised (timeout, missing interpreter, ...). -/
inductive RunOutcome where
  | completed (returncode : ℤ) (stdout : String) (stderr : String)
  | raised (msg : String)
deriving Repr, DecidableEq

/-- Environment of `check_policy`: whether `policy_check.py` exists and
what running it produced. (The venv-interpreter choice affects only
which binary is spawned, never the returned pair, so it is not
modelled.) -/
structure CheckPolicyEnv where
  scriptExists : Bool
  outcome : RunOutcome
deriving Repr, DecidableEq

/-- `check_policy`: missing script is an immediate denial; a completed
run is allowed exactly when the return code is 0, with the message
taken from stdout (stderr when stdout strips to empty); a raised
exception is a denial carrying the error text. -/
def check_policy (e : CheckPolicyEnv) : Bool × String :=
  if e.scriptExists = false then (false, "policy_check.py not found")
  else
    match e.outcome with
    | .completed rc out err =>
        (rc == 0, if out.trim ≠ "" then out.trim else err.trim)
    | .raised m => (false, "policy check error: " ++ m)

/-- Claim C7: the authorization check is fail-closed — it answers
`allowed = true` exactly when the script exists and the run completed
with return code 0; a missing script yields the fixed denial message;
an exception during the run yields a denial with the error text; a
completed run with nonzero return code is denied. No case raises. -/
theorem check_policy_fail_closed (e : CheckPolicyEnv) :
    ((check_policy e).1 = true ↔
      (e.scriptExists = true ∧ ∃ o s, e.outcome = .completed 0 o s)) ∧
    (e.scriptExists = false → check_policy e = (false, "policy_check.py not found")) ∧
    (∀ m, e.scriptExists = true → e.outcome = .raised m →
      check_policy e = (false, "policy check error: " ++ m)) ∧
    (∀ rc o s, e.outcome = .completed rc o s → rc ≠ 0 → (check_policy e).1 = false) := by
  obtain ⟨sx, oc⟩ := e
  refine ⟨?_, ?_, ?_, ?_⟩
  · cases sx with
    | false => simp [check_policy]
    | true =>
      cases oc with
      | completed rc out err =>
        constructor
        · intro h
          have hrc : rc = 0 := by
            by_contra hne
            simp [check_policy, hne] at h
          subst hrc
          exact ⟨rfl, out, err, rfl⟩
        · rintro ⟨-, o, s, hc⟩
          injection hc with h1 h2 h3
          subst h1
          simp [check_policy]
      | raised m => simp [check_policy]
  · intro h; subst h; rfl
  · intro m hs ho; subst hs; subst ho; rfl
  · intro rc o s ho hrc
    subst ho
    cases sx with
    | false => rfl
    | true => simp [check_policy, hrc]

/-- Witness for `check_policy_fail_closed`: a missing script is denied
with the fixed message. -/
theorem check_policy_fail_closed_witness :
    check_policy ⟨false, .completed 0 "" ""⟩ = (false, "policy_check.py not found") :=
  (check_policy_fail_closed ⟨false, .completed 0 "" ""⟩).2.1 rfl

/-- One day-bucket of `ledger.json`: transactions counted and USD value
spent on that UTC day. -/
structure DayEntry where
  count : ℤ
  value_usd : ℚ
deriving Repr, DecidableEq

/-- The policy configuration fields read by `get_policy_status` (already
coerced to numbers, as the code does with `float(...)`/`int(...)`). -/
structure PolicyCfg where
  max_daily_value_usd : ℚ
  max_tx_value_usd : ℚ
  max_daily_txs : ℤ
  cooldown_seconds : ℤ
  mode : String
deriving Repr, DecidableEq

/-- Environment of `get_policy_status`: the parsed policy, the ledger as
a key/value mapping (JSON object), the `ts` field of `last_tx.json`
(0 when absent), the current UTC calendar date string, and the clock. -/
structure StatusEnv where
  policy : PolicyCfg
  ledger : List (String × DayEntry)
  last_ts : ℤ
  today : String
  now : ℤ

/-- `dict.get`: first binding for the key, if any. -/
def lookupDay (l : List (String × DayEntry)) (k : String) : Option DayEntry :=
  (l.find? fun p => p.fst == k).map Prod.snd

/-- The status record returned by `get_policy_status`. -/
structure PolicyStatus where
  mode : String
  max_tx_usd : ℚ
  max_daily_usd : ℚ
  max_daily_txs : ℤ
  daily_spent_usd : ℚ
  daily_tx_count : ℤ
  daily_remaining_usd : ℚ
  cooldown_seconds : ℤ
  cooldown_remaining : ℤ
deriving Repr, DecidableEq

/-- `get_policy_status`: read the bucket keyed by today's UTC date
(zeroes when missing), derive the remaining daily budget, and derive
the cooldown remainder from the last committed action's timestamp. -/
def get_policy_status (e : StatusEnv) : PolicyStatus :=
  let day := (lookupDay e.ledger e.today).getD ⟨0, 0⟩
  let cooldown := e.policy.cooldown_seconds
  let cooldown_remaining :=
    if cooldown > 0 ∧ e.last_ts > 0 then max 0 (cooldown - (e.now - e.last_ts)) else 0
  { mode := e.policy.mode
    max_tx_usd := e.policy.max_tx_value_usd
    max_daily_usd := e.policy.max_daily_value_usd
    max_daily_txs := e.policy.max_daily_txs
    daily_spent_usd := day.value_usd
    daily_tx_count := day.count
    daily_remaining_usd := max 0 (e.policy.max_daily_value_usd - day.value_usd)
    cooldown_seconds := cooldown
    cooldown_remaining := cooldown_remaining }

/-- Claim C9: the status view depends on the ledger only through the
bucket keyed by the current UTC date — any ledger agreeing on that
bucket gives the same status, and prepending an entry for a different
day changes nothing; a missing bucket for today reads as zero spent and
zero count; `daily_remaining_usd = max 0 (max_daily − spent)`; and
under a sane clock (`0 ≤ last_ts ≤ now`, `0 ≤ cooldown ≤ now`) the
cooldown remainder is `max 0 (cooldown − (now − last_ts))`. -/
theorem get_policy_status_spec (e : StatusEnv) :
    (∀ led₂ : List (String × DayEntry), lookupDay led₂ e.today = lookupDay e.ledger e.today →
      get_policy_status { e with ledger := led₂ } = get_policy_status e) ∧
    (∀ k d, k ≠ e.today →
      get_policy_status { e with ledger := (k, d) :: e.ledger } = get_policy_status e) ∧
    (lookupDay e.ledger e.today = none →
      (get_policy_status e).daily_spent_usd = 0 ∧ (get_policy_status e).daily_tx_count = 0) ∧
    (get_policy_status e).daily_remaining_usd =
      max 0 ((get_policy_status e).max_daily_usd - (get_policy_status e).daily_spent_usd) ∧
    (0 ≤ e.last_ts → e.last_ts ≤ e.now →
      0 ≤ e.policy.cooldown_seconds → e.policy.cooldown_seconds ≤ e.now →
      (get_policy_status e).cooldown_remaining =
        max 0 (e.policy.cooldown_seconds - (e.now - e.last_ts))) := by
  refine ⟨?_, ?_, ?_, ?_, ?_⟩
  · intro led₂ hagree
    simp [get_policy_status, hagree]
  · intro k d hk
    have : lookupDay ((k, d) :: e.ledger) e.today = lookupDay e.ledger e.today := by
      simp [lookupDay, List.find?, beq_eq_false_iff_ne.mpr hk]
    simp [get_policy_status, this]
  · intro hmiss
    simp [get_policy_status, hmiss]
  · rfl
  · intro h1 h2 h3 h4
    simp only [get_policy_status]
    rcases lt_or_eq_of_le h3 with hc | hc
    · rcases lt_or_eq_of_le h1 with hl | hl
      · simp [hc, hl]
      · rw [if_neg (by omega)]
        omega
    · rw [if_neg (by omega)]
      omega

/-- Witness for `get_policy_status_spec`: a ledger holding only a
yesterday bucket reads as zero spent today. -/
theorem get_policy_status_spec_witness :
    (get_policy_status
      { policy := ⟨500, 100, 10, 3600, "LIVE"⟩
        ledger := [("2026-10-11", ⟨4, 400⟩)]
        last_ts := 1000
        today := "2026-10-12"
        now := 2000 }).daily_spent_usd = 0 := by
  have h := (get_policy_status_spec
    { policy := ⟨500, 100, 10, 3600, "LIVE"⟩
      ledger := [("2026-10-11", ⟨4, 400⟩)]
      last_ts := 1000
      today := "2026-10-12"
      now := 2000 }).2.2.1
  exact (h (by simp [lookupDay, List.find?])).1

/-- The fields of a Jupiter quote used by `jupiter_swap`:
`inAmountParsed` is the result of `int(quote.get("inAmount", 0))`, with
`none` modelling a parse failure (`ValueError`/`TypeError`);
`inAmountStr`/`outAmountStr` are `str(quote.get(...))`, and
`priceImpactPct` the reported price impact. -/
structure JupQuote where
  inAmountParsed : Option ℤ
  inAmountStr : String
  outAmountStr : String
  priceImpactPct : String
deriving Repr, DecidableEq

/-- `result["quote"]` as assembled by `jupiter_swap`. -/
structure QuoteInfo where
  input_mint : String
  output_mint : String
  in_amount : String
  out_amount : String
  price_impact_pct : String
  estimated_value_usd : ℚ
deriving Repr, DecidableEq

/-- Payload of a financial-event log append made by the swap flow. -/
inductive EvPayload where
  | denied (reason : String) (q : QuoteInfo)
  | swap (chain : String) (value_usd : ℚ)
      (input_mint output_mint in_amount out_amount : String)
deriving Repr, DecidableEq

/-- One external call or log append performed by `jupiter_swap`, in
program order. -/
inductive Eff where
  | quoteReq (input_mint output_mint : String) (amount : ℤ) (slippage_bps : ℤ)
  | priceReq
  | checkCall (commit : Bool) (chain : String) (value_usd : ℚ) (dest : String)
  | buildCall (user_pubkey : String)
  | logEvent (etype : String) (payload : EvPayload)
  | decisionRec (dtype : String)
deriving Repr, DecidableEq

/-- The four terminal statuses of the swap flow. -/
inductive SwapStatus where
  | error
  | policy_denied
  | quote_ready
  | tx_ready
deriving Repr, DecidableEq

/-- The result dict of `jupiter_swap`, with keys that are only
sometimes set modelled as options. -/
structure SwapResult where
  status : SwapStatus
  dry_run : Bool
  errMsg : Option String
  quote : Option QuoteInfo
  policy : Option (Bool × String)
  swap_transaction_b64 : Option String
deriving Repr, DecidableEq

/-- Responses of the collaborators of one `jupiter_swap` invocation:
the Jupiter quote endpoint, the price sources behind `get_sol_price`,
the policy checker (`check_policy` restricted to this invocation's
fixed chain/value/destination, as a function of the commit flag), the
wallet address read by `get_solana_address` (`""` when unavailable),
and the Jupiter transaction-build endpoint. -/
structure SwapEnv where
  quoteResp : Option JupQuote
  price : PriceEnv
  check : Bool → Bool × String
  address : String
  buildResp : Option String

/-- `jupiter_swap`: quote, value the input amount, non-committing
policy check, dry-run exit, read the wallet address, build the
transaction, then a committing policy check whose result is discarded;
the returned trace records the calls in program order. -/
def jupiter_swap (env : SwapEnv) (input_mint output_mint : String)
    (amount : ℤ) (slippage_bps : ℤ) (dry_run : Bool) : SwapResult × List Eff :=
  let tr0 : List Eff := [.quoteReq input_mint output_mint amount slippage_bps]
  match env.quoteResp with
  | none =>
    ({ status := .error, dry_run, errMsg := some "Failed to get Jupiter quote",
       quote := none, policy := none, swap_transaction_b64 := none }, tr0)
  | some q =>
    let vt : ℚ × List Eff :=
      match q.inAmountParsed with
      | none => (0, tr0)
      | some n =>
        let sol_price := (get_sol_price env.price).getD 0
        (if input_mint = SOL_MINT then ((n : ℚ) / 1000000000) * sol_price else 0,
         tr0 ++ [.priceReq])
    let value_usd := vt.1
    let qinfo : QuoteInfo :=
      { input_mint, output_mint, in_amount := q.inAmountStr,
        out_amount := q.outAmountStr, price_impact_pct := q.priceImpactPct,
        estimated_value_usd := round2 value_usd }
    let ch := env.check false
    let tr2 := vt.2 ++ [.checkCall false "solana" value_usd "jupiter_swap"]
    if ch.1 = false then
      ({ status := .policy_denied, dry_run, errMsg := none, quote := some qinfo,
         policy := some ch, swap_transaction_b64 := none },
       tr2 ++ [.logEvent "swap_denied" (.denied ch.2 qinfo)])
    else if dry_run then
      ({ status := .quote_ready, dry_run, errMsg := none, quote := some qinfo,
         policy := some ch, swap_transaction_b64 := none }, tr2)
    else if env.address = "" then
      ({ status := .error, dry_run, errMsg := some "No Solana wallet address",
         quote := some qinfo, policy := some ch, swap_transaction_b64 := none }, tr2)
    else
      let tr3 := tr2 ++ [.buildCall env.address]
      match env.buildResp with
      | none =>
        ({ status := .error, dry_run, errMsg := some "Failed to build swap transaction",
           quote := some qinfo, policy := some ch, swap_transaction_b64 := none }, tr3)
      | some tx =>
        ({ status := .tx_ready, dry_run, errMsg := none, quote := some qinfo,
           policy := some ch, swap_transaction_b64 := some tx },
         tr3 ++ [.checkCall true "solana" value_usd "jupiter_swap",
                 .logEvent "swap"
                   (.swap "solana" value_usd input_mint output_mint q.inAmountStr q.outAmountStr),
                 .decisionRec "swap_executed"])

/-- Recognizer for a committing (`commit=true`) policy-check call. -/
def isCommitCall : Eff → Bool
  | .checkCall true _ _ _ => true
  | _ => false

/-- Recognizer for a transaction-build call. -/
def isBuildCall : Eff → Bool
  | .buildCall _ => true
  | _ => false

/-- Claim C1: in every non-dry-run swap invocation, the committing
(`commit=true`) authorization call appears in the trace exactly once if
the invocation returns `tx_ready` and not at all otherwise; when it
appears it is preceded by a successful non-committing check for the
same (chain, value, destination) and by the transaction-build call; and
once the build succeeds the commit is unconditional — the entire
outcome is unchanged under any replacement of the authority's answer to
the committing call. -/
theorem jupiter_swap_commit_exactly_once (env : SwapEnv) (im om : String) (amt slip : ℤ) :
    ((jupiter_swap env im om amt slip false).2.countP isCommitCall =
      if (jupiter_swap env im om amt slip false).1.status = .tx_ready then 1 else 0) ∧
    ((jupiter_swap env im om amt slip false).1.status = .tx_ready →
      (env.check false).1 = true ∧ env.buildResp.isSome ∧
      ∃ l₁ l₂ v,
        (jupiter_swap env im om amt slip false).2 =
          l₁ ++ Eff.checkCall true "solana" v "jupiter_swap" :: l₂ ∧
        Eff.checkCall false "solana" v "jupiter_swap" ∈ l₁ ∧
        Eff.buildCall env.address ∈ l₁ ∧
        l₁.countP isCommitCall = 0 ∧ l₂.countP isCommitCall = 0) ∧
    (∀ g : Bool → Bool × String, g false = env.check false →
      jupiter_swap { env with check := g } im om amt slip false =
        jupiter_swap env im om amt slip false) := by
  obtain ⟨qr, pr, ck, addr, br⟩ := env
  rcases qr with _ | q
  · exact ⟨by simp [jupiter_swap, isCommitCall],
      by simp [jupiter_swap],
      fun g hg => by simp [jupiter_swap]⟩
  · rcases q with ⟨ip, ias, oas, pip⟩
    rcases hck : ck false with ⟨a, msg⟩
    refine ⟨?_, ?_, ?_⟩
    · rcases ip with _ | n <;> rcases a <;> by_cases ha : addr = "" <;> rcases br with _ | tx <;>
        simp [jupiter_swap, hck, ha, isCommitCall, List.countP_cons, List.countP_nil,
          List.countP_append]
    · intro h
      rcases a with _ | _
      · rcases ip with _ | n <;> simp [jupiter_swap, hck] at h
      · by_cases ha : addr = ""
        · rcases ip with _ | n <;> simp [jupiter_swap, hck, ha] at h
        · rcases br with _ | tx
          · rcases ip with _ | n <;> simp [jupiter_swap, hck, ha] at h
          · refine ⟨by simp [hck], by simp, ?_⟩
            rcases ip with _ | n
            · exact ⟨[.quoteReq im om amt slip, .checkCall false "solana" 0 "jupiter_swap",
                  .buildCall addr],
                [.logEvent "swap" (.swap "solana" 0 im om ias oas),
                  .decisionRec "swap_executed"], 0,
                by simp [jupiter_swap, hck, ha], by simp, by simp,
                by simp [isCommitCall, List.countP_cons, List.countP_nil],
                by simp [isCommitCall, List.countP_cons, List.countP_nil]⟩
            · exact ⟨[.quoteReq im om amt slip, .priceReq,
                  .checkCall false "solana"
                    (if im = SOL_MINT then (n : ℚ) / 1000000000 * (get_sol_price pr).getD 0 else 0)
                    "jupiter_swap",
                  .buildCall addr],
                [.logEvent "swap"
                    (.swap "solana"
                      (if im = SOL_MINT then (n : ℚ) / 1000000000 * (get_sol_price pr).getD 0 else 0)
                      im om ias oas),
                  .decisionRec "swap_executed"],
                (if im = SOL_MINT then (n : ℚ) / 1000000000 * (get_sol_price pr).getD 0 else 0),
                by simp [jupiter_swap, hck, ha], by simp, by simp,
                by simp [isCommitCall, List.countP_cons, List.countP_nil],
                by simp [isCommitCall, List.countP_cons, List.countP_nil]⟩
    · intro g hg
      rcases ip with _ | n <;> rcases a <;> by_cases ha : addr = "" <;> rcases br with _ | tx <;>
        simp [jupiter_swap, hg, hck, ha]

/-- A concrete environment whose swap reaches `tx_ready`. -/
def swapEnvTx : SwapEnv :=
  { quoteResp := some ⟨some 1000000000, "1000000000", "5", "0.1"⟩
    price := ⟨some 100, none⟩
    check := fun _ => (true, "ok")
    address := "addr1"
    buildResp := some "txb64" }

/-- Witness for `jupiter_swap_commit_exactly_once`: the concrete
`tx_ready` run commits exactly once. -/
theorem jupiter_swap_commit_exactly_once_witness :
    (jupiter_swap swapEnvTx SOL_MINT "OUT" 1000000000 50 false).2.countP isCommitCall = 1 := by
  have h := (jupiter_swap_commit_exactly_once swapEnvTx SOL_MINT "OUT" 1000000000 50).1
  rw [h]
  norm_num [jupiter_swap, swapEnvTx, get_sol_price,
    show ("addr1" : String) ≠ "" from by decide]

/-- Claim C2: a swap whose non-committing check is denied ends in
`policy_denied` carrying the authority's message, appends a
`swap_denied` event holding the quote details, and performs neither a
build call nor a committing check. -/
theorem jupiter_swap_denied_spec (env : SwapEnv) (im om : String) (amt slip : ℤ)
    (dry : Bool) (q : JupQuote) (m : String)
    (hq : env.quoteResp = some q) (hc : env.check false = (false, m)) :
    (jupiter_swap env im om amt slip dry).1.status = .policy_denied ∧
    (jupiter_swap env im om amt slip dry).1.policy = some (false, m) ∧
    (∃ qi, (jupiter_swap env im om amt slip dry).1.quote = some qi ∧
      Eff.logEvent "swap_denied" (.denied m qi) ∈ (jupiter_swap env im om amt slip dry).2) ∧
    (jupiter_swap env im om amt slip dry).2.countP isBuildCall = 0 ∧
    (jupiter_swap env im om amt slip dry).2.countP isCommitCall = 0 := by
  obtain ⟨qr, pr, ck, addr, br⟩ := env
  replace hc : ck false = (false, m) := hc
  obtain rfl : qr = some q := hq
  rcases q with ⟨ip, ias, oas, pip⟩
  rcases ip with _ | n
  · exact ⟨by simp [jupiter_swap, hc], by simp [jupiter_swap, hc],
      ⟨⟨im, om, ias, oas, pip, round2 0⟩,
        by simp [jupiter_swap, hc], by simp [jupiter_swap, hc]⟩,
      by simp [jupiter_swap, hc, isBuildCall, List.countP_cons, List.countP_nil,
        List.countP_append],
      by simp [jupiter_swap, hc, isCommitCall, List.countP_cons, List.countP_nil,
        List.countP_append]⟩
  · exact ⟨by simp [jupiter_swap, hc], by simp [jupiter_swap, hc],
      ⟨⟨im, om, ias, oas, pip,
          round2 (if im = SOL_MINT then (n : ℚ) / 1000000000 * (get_sol_price pr).getD 0 else 0)⟩,
        by simp [jupiter_swap, hc], by simp [jupiter_swap, hc]⟩,
      by simp [jupiter_swap, hc, isBuildCall, List.countP_cons, List.countP_nil,
        List.countP_append],
      by simp [jupiter_swap, hc, isCommitCall, List.countP_cons, List.countP_nil,
        List.countP_append]⟩

/-- A concrete environment whose check is denied. -/
def swapEnvDenied : SwapEnv :=
  { quoteResp := some ⟨some 5, "5", "9", "1"⟩
    price := ⟨none, none⟩
    check := fun _ => (false, "limit")
    address := ""
    buildResp := none }

/-- Witness for `jupiter_swap_denied_spec` on `swapEnvDenied`. -/
theorem jupiter_swap_denied_spec_witness :
    (jupiter_swap swapEnvDenied "A" "B" 5 50 true).1.status = .policy_denied ∧
    (jupiter_swap swapEnvDenied "A" "B" 5 50 true).2.countP isCommitCall = 0 := by
  have h := jupiter_swap_denied_spec swapEnvDenied "A" "B" 5 50 true
    ⟨some 5, "5", "9", "1"⟩ "limit" rfl rfl
  exact ⟨h.1, h.2.2.2.2⟩

/-- Claim C3: a dry-run swap whose check is allowed ends in
`quote_ready` with the quote and the authorization result attached, and
performs neither a build call nor a committing check. -/
theorem jupiter_swap_dry_run_spec (env : SwapEnv) (im om : String) (amt slip : ℤ)
    (q : JupQuote) (m : String)
    (hq : env.quoteResp = some q) (hc : env.check false = (true, m)) :
    (jupiter_swap env im om amt slip true).1.status = .quote_ready ∧
    (jupiter_swap env im om amt slip true).1.quote.isSome = true ∧
    (jupiter_swap env im om amt slip true).1.policy = some (true, m) ∧
    (jupiter_swap env im om amt slip true).2.countP isBuildCall = 0 ∧
    (jupiter_swap env im om amt slip true).2.countP isCommitCall = 0 := by
  obtain ⟨qr, pr, ck, addr, br⟩ := env
  replace hc : ck false = (true, m) := hc
  obtain rfl : qr = some q := hq
  rcases q with ⟨ip, ias, oas, pip⟩
  rcases ip with _ | n <;>
    exact ⟨by simp [jupiter_swap, hc], by simp [jupiter_swap, hc],
      by simp [jupiter_swap, hc],
      by simp [jupiter_swap, hc, isBuildCall, List.countP_cons, List.countP_nil,
        List.countP_append],
      by simp [jupiter_swap, hc, isCommitCall, List.countP_cons, List.countP_nil,
        List.countP_append]⟩

/-- A concrete environment with an allowed check, for dry-run use. -/
def swapEnvDry : SwapEnv :=
  { quoteResp := some ⟨some 5, "5", "9", "1"⟩
    price := ⟨none, none⟩
    check := fun _ => (true, "ok")
    address := ""
    buildResp := none }

/-- Witness for `jupiter_swap_dry_run_spec` on `swapEnvDry`. -/
theorem jupiter_swap_dry_run_spec_witness :
    (jupiter_swap swapEnvDry "A" "B" 5 50 true).1.status = .quote_ready ∧
    (jupiter_swap swapEnvDry "A" "B" 5 50 true).2.countP isCommitCall = 0 := by
  have h := jupiter_swap_dry_run_spec swapEnvDry "A" "B" 5 50
    ⟨some 5, "5", "9", "1"⟩ "ok" rfl rfl
  exact ⟨h.1, h.2.2.2.2⟩

/-- Claim C10: a non-dry-run swap whose check is allowed but whose
wallet address cannot be read ends in the error outcome with the
no-wallet message, and performs neither a build call nor a committing
check — the allowed check is never committed. -/
theorem jupiter_swap_no_wallet_spec (env : SwapEnv) (im om : String) (amt slip : ℤ)
    (q : JupQuote) (m : String)
    (hq : env.quoteResp = some q) (hc : env.check false = (true, m))
    (ha : env.address = "") :
    (jupiter_swap env im om amt slip false).1.status = .error ∧
    (jupiter_swap env im om amt slip false).1.errMsg = some "No Solana wallet address" ∧
    (jupiter_swap env im om amt slip false).2.countP isBuildCall = 0 ∧
    (jupiter_swap env im om amt slip false).2.countP isCommitCall = 0 := by
  obtain ⟨qr, pr, ck, addr, br⟩ := env
  replace hc : ck false = (true, m) := hc
  obtain rfl : qr = some q := hq
  obtain rfl : addr = "" := ha
  rcases q with ⟨ip, ias, oas, pip⟩
  rcases ip with _ | n <;>
    exact ⟨by simp [jupiter_swap, hc], by simp [jupiter_swap, hc],
      by simp [jupiter_swap, hc, isBuildCall, List.countP_cons, List.countP_nil,
        List.countP_append],
      by simp [jupiter_swap, hc, isCommitCall, List.countP_cons, List.countP_nil,
        List.countP_append]⟩

/-- A concrete environment with an allowed check but no wallet address. -/
def swapEnvNoWallet : SwapEnv :=
  { quoteResp := some ⟨some 5, "5", "9", "1"⟩
    price := ⟨none, none⟩
    check := fun _ => (true, "ok")
    address := ""
    buildResp := some "txb64" }

/-- Witness for `jupiter_swap_no_wallet_spec` on `swapEnvNoWallet`. -/
theorem jupiter_swap_no_wallet_spec_witness :
    (jupiter_swap swapEnvNoWallet "A" "B" 5 50 false).1.status = .error ∧
    (jupiter_swap swapEnvNoWallet "A" "B" 5 50 false).2.countP isCommitCall = 0 := by
  have h := jupiter_swap_no_wallet_spec swapEnvNoWallet "A" "B" 5 50
    ⟨some 5, "5", "9", "1"⟩ "ok" rfl rfl rfl
  exact ⟨h.1, h.2.2.2⟩

/-- Claim C8: every swap that obtains a quote performs its
non-committing check against a value `v` recorded in the trace, where
`v` is derived from the quoted input amount through the price resolver:
when the input is SOL, the amount parses, and `get_sol_price` resolves
to `p`, then `v = inAmount/10⁹ × p`; whenever the price fails to
resolve — or the input asset is one the resolver does not index, or
the amount fails to parse — `v = 0` and the check is performed against
that 0 value. The authorization result attached to the outcome is
exactly the authority's answer. -/
theorem jupiter_swap_value_resolution (env : SwapEnv) (im om : String) (amt slip : ℤ)
    (dry : Bool) (q : JupQuote) (hq : env.quoteResp = some q) :
    ∃ v, Eff.checkCall false "solana" v "jupiter_swap" ∈ (jupiter_swap env im om amt slip dry).2 ∧
      (jupiter_swap env im om amt slip dry).1.policy = some (env.check false) ∧
      (∀ n p, q.inAmountParsed = some n → get_sol_price env.price = some p → im = SOL_MINT →
        v = (n : ℚ) / 1000000000 * p) ∧
      (get_sol_price env.price = none → v = 0) ∧
      (im ≠ SOL_MINT → v = 0) ∧
      (q.inAmountParsed = none → v = 0) := by
  obtain ⟨qr, pr, ck, addr, br⟩ := env
  obtain rfl : qr = some q := hq
  rcases q with ⟨ip, ias, oas, pip⟩
  rcases hck : ck false with ⟨a, msg⟩
  rcases ip with _ | n
  · refine ⟨0, ?_, ?_, by simp, fun _ => rfl, fun _ => rfl, fun _ => rfl⟩
    · rcases a <;> rcases dry <;> by_cases ha : addr = "" <;> rcases br with _ | tx <;>
        simp [jupiter_swap, hck, ha]
    · rcases a <;> rcases dry <;> by_cases ha : addr = "" <;> rcases br with _ | tx <;>
        simp [jupiter_swap, hck, ha]
  · refine ⟨if im = SOL_MINT then (n : ℚ) / 1000000000 * (get_sol_price pr).getD 0 else 0,
      ?_, ?_, ?_, ?_, ?_, by simp⟩
    · rcases a <;> rcases dry <;> by_cases ha : addr = "" <;> rcases br with _ | tx <;>
        simp [jupiter_swap, hck, ha]
    · rcases a <;> rcases dry <;> by_cases ha : addr = "" <;> rcases br with _ | tx <;>
        simp [jupiter_swap, hck, ha]
    · intro n' p hn hp him
      injection hn with hn
      subst hn
      rw [if_pos him, hp]
      rfl
    · intro hp
      rw [hp]
      simp
    · intro him
      rw [if_neg him]

/-- Witness for `jupiter_swap_value_resolution`: in the concrete
`tx_ready` run, the checked value is 1 SOL times the resolved price. -/
theorem jupiter_swap_value_resolution_witness :
    ∃ v, Eff.checkCall false "solana" v "jupiter_swap" ∈
        (jupiter_swap swapEnvTx SOL_MINT "OUT" 1000000000 50 false).2 ∧
      v = (1000000000 : ℚ) / 1000000000 * 100 := by
  obtain ⟨v, hmem, -, hsol, -, -, -⟩ :=
    jupiter_swap_value_resolution swapEnvTx SOL_MINT "OUT" 1000000000 50 false
      ⟨some 1000000000, "1000000000", "5", "0.1"⟩ rfl
  exact ⟨v, hmem, hsol 1000000000 100 rfl (by norm_num [get_sol_price, swapEnvTx]) rfl⟩
